import Mathlib

/-!
Verification of the micro:bit command interpreter
(`src/microbit_V2026.01.1.ts`).

The source file contains two encodings of the same interpreter: a
Python-style encoding (first half of the file) and a TypeScript encoding
(second half, `process_command`, lines 131-259).  Both are modelled here
as pure functions over a hardware environment, returning the new value of
the global `cmd` variable together with the trace of hardware actions and
transport writes performed, in order.

Strings are modelled as `List Char`.  `trim` is modelled as dropping
whitespace characters from both ends, `toLowerCase` as ASCII lowercasing,
and the Python-style `split(" ")` as splitting on single spaces keeping
empty fields.  `parseInt` is modelled as best-effort decimal integer
parsing returning `none` for NaN.
-/

namespace Microbit

/-- Whitespace test used by `trim` (space, tab, carriage return, newline). -/
def isWs (c : Char) : Bool := c.isWhitespace

/-- ASCII lowercasing of one character, as performed by `toLowerCase`. -/
def lowerChar (c : Char) : Char :=
  if 'A' ≤ c ∧ c ≤ 'Z' then Char.ofNat (c.toNat + 32) else c

/-- Lowercasing of a whole character list (`toLowerCase`). -/
def toLowerL (l : List Char) : List Char := l.map lowerChar

/-- Trimming (`trim`): drop leading whitespace, then drop trailing whitespace. -/
def trimL (l : List Char) : List Char :=
  (((l.dropWhile isWs).reverse.dropWhile isWs)).reverse

/-- Normalisation done at the top of `process_command` (line 142):
`msg_input.trim().toLowerCase()`. -/
def normalizeL (l : List Char) : List Char := toLowerL (trimL l)

/-- Python-style `split(" ")` (`_py.py_string_split(raw_msg, " ")`, line 147):
split on single spaces, keeping empty fields; the result is never empty. -/
def splitOnSpace (l : List Char) : List (List Char) :=
  match l with
  | [] => [[]]
  | c :: cs =>
    match splitOnSpace cs with
    | [] => [[]]
    | t :: ts => if c = ' ' then [] :: t :: ts else (c :: t) :: ts

/-- First token of the normalised line: `parts[0]` (line 149). -/
def firstTok (l : List Char) : List Char := (splitOnSpace (normalizeL l)).headI

/-- Decimal value of the leading digit run, `none` when there is none. -/
def digitsVal (l : List Char) : Option Nat :=
  match l.takeWhile Char.isDigit with
  | [] => none
  | ds => some (ds.foldl (fun a c => a * 10 + (c.toNat - 48)) 0)

/-- JavaScript `parseInt` on a token, modelled for decimal input: optional
sign followed by a longest leading digit run; `none` models NaN. -/
def parseIntJS (l : List Char) : Option Int :=
  match l with
  | '-' :: rest => (digitsVal rest).map (fun n => -(n : Int))
  | '+' :: rest => (digitsVal rest).map (fun n => (n : Int))
  | _ => (digitsVal l).map (fun n => (n : Int))

/-- The three analog/digital pins the interpreter addresses. -/
inductive Pin where
  | P0
  | P1
  | P2
deriving DecidableEq, Repr

/-- One observable event: a hardware-facade call or a transport write.
Sensor and pin reads are recorded as actions too, so an empty trace means
no hardware action and no reply at all.  Numeric arguments that come from
`parseInt` are `Option Int` (`none` models NaN). -/
inductive Action where
  | uartWriteLine (msg : List Char)
  | serialWriteLine (msg : List Char)
  | readTemperature
  | readLightLevel
  | readAcceleration
  | readCompassHeading
  | analogReadPin (p : Pin)
  | digitalWritePin (p : Pin) (v : Option Int)
  | analogWritePin (p : Pin) (v : Option Int)
  | playTone (freq dur : Option Int)
  | showString (s : List Char)
  | ledPlot (x y : Option Int)
  | ledUnplot (x y : Option Int)
  | ledToggle (x y : Option Int)
  | clearScreen
  | stopAllSounds
deriving DecidableEq, Repr

/-- The hardware environment: the values the sensor and pin reads return. -/
structure Env where
  temperature : Int
  lightLevel : Int
  accelStrength : Int
  compassHeading : Int
  analogRead : Pin → Int

/-- The responder `reply(msg)` (lines 119-122): write the message to the
Bluetooth UART, then to the serial link. -/
def reply (msg : List Char) : List Action :=
  [Action.uartWriteLine msg, Action.serialWriteLine msg]

/-- The `get_pin` pin selection (lines 173-181): `val = 0`, overwritten by
an analog read when the pin name is `p0`, `p1` or `p2`.  Returns the read
actions performed together with the resulting `val`. -/
def pinRead (env : Env) (p_name : List Char) : List Action × Int :=
  if p_name = "p0".data then ([Action.analogReadPin Pin.P0], env.analogRead Pin.P0)
  else if p_name = "p1".data then ([Action.analogReadPin Pin.P1], env.analogRead Pin.P1)
  else if p_name = "p2".data then ([Action.analogReadPin Pin.P2], env.analogRead Pin.P2)
  else ([], 0)

/-- The dispatch chain of the TypeScript `process_command` (lines 151-257),
applied to `cmd = parts[0]` and the token list `parts`.  Each branch
produces the trace of hardware actions and replies it performs. -/
def dispatch (env : Env) (cmd : List Char) (parts : List (List Char)) :
    List Action :=
  if cmd = "get_sensor".data then
    if parts.length < 2 then []
    else if parts.getI 1 = "temp".data then
      Action.readTemperature :: reply (toString env.temperature).data
    else if parts.getI 1 = "light".data then
      Action.readLightLevel :: reply (toString env.lightLevel).data
    else if parts.getI 1 = "accel".data then
      Action.readAcceleration :: reply (toString env.accelStrength).data
    else if parts.getI 1 = "compass".data then
      Action.readCompassHeading :: reply (toString env.compassHeading).data
    else []
  else if cmd = "get_pin".data then
    if parts.length < 2 then []
    else
      (pinRead env (parts.getI 1)).1 ++
        reply ("PIN ".data ++ parts.getI 1 ++ ": ".data ++
          (toString (pinRead env (parts.getI 1)).2).data)
  else if cmd = "pin".data then
    if parts.length < 4 then []
    else if parts.getI 1 = "d".data then
      if parts.getI 2 = "p0".data then
        [Action.digitalWritePin Pin.P0 (parseIntJS (parts.getI 3))]
      else if parts.getI 2 = "p1".data then
        [Action.digitalWritePin Pin.P1 (parseIntJS (parts.getI 3))]
      else if parts.getI 2 = "p2".data then
        [Action.digitalWritePin Pin.P2 (parseIntJS (parts.getI 3))]
      else []
    else if parts.getI 2 = "p0".data then
      [Action.analogWritePin Pin.P0 (parseIntJS (parts.getI 3))]
    else if parts.getI 2 = "p1".data then
      [Action.analogWritePin Pin.P1 (parseIntJS (parts.getI 3))]
    else if parts.getI 2 = "p2".data then
      [Action.analogWritePin Pin.P2 (parseIntJS (parts.getI 3))]
    else []
  else if cmd = "tone".data then
    if parts.length < 3 then []
    else [Action.playTone (parseIntJS (parts.getI 1)) (parseIntJS (parts.getI 2))]
  else if cmd = "print".data then
    [Action.showString
      (trimL ((parts.drop 1).foldl (fun a t => a ++ t ++ [' ']) []))]
  else if cmd = "plot".data then
    if parts.length < 3 then []
    else [Action.ledPlot (parseIntJS (parts.getI 1)) (parseIntJS (parts.getI 2))]
  else if cmd = "unplot".data then
    if parts.length < 3 then []
    else [Action.ledUnplot (parseIntJS (parts.getI 1)) (parseIntJS (parts.getI 2))]
  else if cmd = "toggle".data then
    if parts.length < 3 then []
    else [Action.ledToggle (parseIntJS (parts.getI 1)) (parseIntJS (parts.getI 2))]
  else if cmd = "clear".data then
    [Action.clearScreen]
  else if cmd = "reset".data then
    Action.clearScreen ::
      Action.analogWritePin Pin.P0 (some 0) ::
      Action.analogWritePin Pin.P1 (some 0) ::
      Action.analogWritePin Pin.P2 (some 0) ::
      Action.stopAllSounds :: reply "RESET_OK".data
  else if cmd = "ping".data then
    reply "pong".data
  else if cmd = "version".data then
    reply "microbit_V2026.01.1".data
  else []

/-- The TypeScript `process_command` (lines 131-259).  Takes the hardware
environment, the current value of the global `cmd` and the raw input line;
returns the new value of `cmd` and the trace of actions.  The locals
`raw_msg`, `parts` and `cmd` of the source are inlined. -/
def process_command (env : Env) (cmd0 : List Char) (msg_input : List Char) :
    List Char × List Action :=
  if (normalizeL msg_input).length = 0 then (cmd0, [])
  else
    ((splitOnSpace (normalizeL msg_input)).headI,
      dispatch env ((splitOnSpace (normalizeL msg_input)).headI)
        (splitOnSpace (normalizeL msg_input)))

/-- The dispatch chain of the Python-style encoding (source lines 24-112).
It is identical to the TypeScript chain except that it has no `version`
branch; the Python-style `int(...)` is the same best-effort parse the
transpiled `parseInt` performs. -/
def dispatch_py (env : Env) (cmd : List Char) (parts : List (List Char)) :
    List Action :=
  if cmd = "get_sensor".data then
    if parts.length < 2 then []
    else if parts.getI 1 = "temp".data then
      Action.readTemperature :: reply (toString env.temperature).data
    else if parts.getI 1 = "light".data then
      Action.readLightLevel :: reply (toString env.lightLevel).data
    else if parts.getI 1 = "accel".data then
      Action.readAcceleration :: reply (toString env.accelStrength).data
    else if parts.getI 1 = "compass".data then
      Action.readCompassHeading :: reply (toString env.compassHeading).data
    else []
  else if cmd = "get_pin".data then
    if parts.length < 2 then []
    else
      (pinRead env (parts.getI 1)).1 ++
        reply ("PIN ".data ++ parts.getI 1 ++ ": ".data ++
          (toString (pinRead env (parts.getI 1)).2).data)
  else if cmd = "pin".data then
    if parts.length < 4 then []
    else if parts.getI 1 = "d".data then
      if parts.getI 2 = "p0".data then
        [Action.digitalWritePin Pin.P0 (parseIntJS (parts.getI 3))]
      else if parts.getI 2 = "p1".data then
        [Action.digitalWritePin Pin.P1 (parseIntJS (parts.getI 3))]
      else if parts.getI 2 = "p2".data then
        [Action.digitalWritePin Pin.P2 (parseIntJS (parts.getI 3))]
      else []
    else if parts.getI 2 = "p0".data then
      [Action.analogWritePin Pin.P0 (parseIntJS (parts.getI 3))]
    else if parts.getI 2 = "p1".data then
      [Action.analogWritePin Pin.P1 (parseIntJS (parts.getI 3))]
    else if parts.getI 2 = "p2".data then
      [Action.analogWritePin Pin.P2 (parseIntJS (parts.getI 3))]
    else []
  else if cmd = "tone".data then
    if parts.length < 3 then []
    else [Action.playTone (parseIntJS (parts.getI 1)) (parseIntJS (parts.getI 2))]
  else if cmd = "print".data then
    [Action.showString
      (trimL ((parts.drop 1).foldl (fun a t => a ++ t ++ [' ']) []))]
  else if cmd = "plot".data then
    if parts.length < 3 then []
    else [Action.ledPlot (parseIntJS (parts.getI 1)) (parseIntJS (parts.getI 2))]
  else if cmd = "unplot".data then
    if parts.length < 3 then []
    else [Action.ledUnplot (parseIntJS (parts.getI 1)) (parseIntJS (parts.getI 2))]
  else if cmd = "toggle".data then
    if parts.length < 3 then []
    else [Action.ledToggle (parseIntJS (parts.getI 1)) (parseIntJS (parts.getI 2))]
  else if cmd = "clear".data then
    [Action.clearScreen]
  else if cmd = "reset".data then
    Action.clearScreen ::
      Action.analogWritePin Pin.P0 (some 0) ::
      Action.analogWritePin Pin.P1 (some 0) ::
      Action.analogWritePin Pin.P2 (some 0) ::
      Action.stopAllSounds :: reply "RESET_OK".data
  else if cmd = "ping".data then
    reply "pong".data
  else []

/-- The Python-style `process_command` (source lines 15-112). -/
def process_command_py (env : Env) (cmd0 : List Char) (msg_input : List Char) :
    List Char × List Action :=
  if (normalizeL msg_input).length = 0 then (cmd0, [])
  else
    ((splitOnSpace (normalizeL msg_input)).headI,
      dispatch_py env ((splitOnSpace (normalizeL msg_input)).headI)
        (splitOnSpace (normalizeL msg_input)))

/-- The pin named by `p0`, `p1` or `p2` (any other name is unused). -/
def pinOf (p_name : List Char) : Pin :=
  if p_name = "p1".data then Pin.P1
  else if p_name = "p2".data then Pin.P2
  else Pin.P0

/-- The twelve command names the dispatch chain recognises, in chain order. -/
def registeredNames : List (List Char) :=
  ["get_sensor".data, "get_pin".data, "pin".data, "tone".data, "print".data,
   "plot".data, "unplot".data, "toggle".data, "clear".data, "reset".data,
   "ping".data, "version".data]

/-- A concrete hardware environment used for witnesses. -/
def envW : Env where
  temperature := 21
  lightLevel := 140
  accelStrength := 1023
  compassHeading := 87
  analogRead := fun p => match p with
    | Pin.P0 => 7
    | Pin.P1 => 513
    | Pin.P2 => 90

/-- A list both of whose ends are already stripped of whitespace. -/
def IsTrimmed (m : List Char) : Prop :=
  m.dropWhile isWs = m ∧ m.reverse.dropWhile isWs = m.reverse

/-! ### Character-level lemmas about lowercasing and whitespace -/

lemma toNat_ofNat_of_valid (n : Nat) (h : n.isValidChar) :
    (Char.ofNat n).toNat = n := by
  unfold Char.ofNat
  rw [dif_pos h]
  rfl

lemma lowerChar_of_upper {c : Char} (h : 'A' ≤ c ∧ c ≤ 'Z') :
    lowerChar c = Char.ofNat (c.toNat + 32) := by
  unfold lowerChar
  rw [if_pos h]

lemma lowerChar_of_not {c : Char} (h : ¬('A' ≤ c ∧ c ≤ 'Z')) :
    lowerChar c = c := by
  unfold lowerChar
  rw [if_neg h]

lemma toNat_lowerChar {c : Char} (h : 'A' ≤ c ∧ c ≤ 'Z') :
    (lowerChar c).toNat = c.toNat + 32 := by
  have hA : 65 ≤ c.toNat := h.1
  have hZ : c.toNat ≤ 90 := h.2
  rw [lowerChar_of_upper h]
  exact toNat_ofNat_of_valid _ (Or.inl (by omega))

lemma lowerChar_idem (c : Char) : lowerChar (lowerChar c) = lowerChar c := by
  by_cases h : 'A' ≤ c ∧ c ≤ 'Z'
  · have ht : (lowerChar c).toNat = c.toNat + 32 := toNat_lowerChar h
    have hA : 65 ≤ c.toNat := h.1
    have hZ : c.toNat ≤ 90 := h.2
    refine lowerChar_of_not ?_
    intro hh
    have : (lowerChar c).toNat ≤ 90 := hh.2
    omega
  · rw [lowerChar_of_not h]
    exact lowerChar_of_not h

lemma isWs_ofNat_lower (n : Nat) (h1 : 97 ≤ n) (h2 : n ≤ 122) :
    isWs (Char.ofNat n) = false := by
  have key : ∀ m ∈ Finset.Icc 97 122, isWs (Char.ofNat m) = false := by decide
  exact key n (Finset.mem_Icc.mpr ⟨h1, h2⟩)

lemma isWs_lowerChar {c : Char} (h : isWs c = false) :
    isWs (lowerChar c) = false := by
  by_cases hu : 'A' ≤ c ∧ c ≤ 'Z'
  · have hA : 65 ≤ c.toNat := hu.1
    have hZ : c.toNat ≤ 90 := hu.2
    rw [lowerChar_of_upper hu]
    exact isWs_ofNat_lower _ (by omega) (by omega)
  · rw [lowerChar_of_not hu]
    exact h

lemma toLowerL_idem (l : List Char) : toLowerL (toLowerL l) = toLowerL l := by
  induction l with
  | nil => rfl
  | cons a t ih =>
    simp only [toLowerL, List.map_cons] at ih ⊢
    rw [lowerChar_idem]
    exact congrArg _ ih

/-! ### Trimming lemmas -/

lemma dropWhile_idem (p : Char → Bool) (l : List Char) :
    (l.dropWhile p).dropWhile p = l.dropWhile p := by
  induction l with
  | nil => rfl
  | cons a t ih =>
    by_cases h : p a
    · rw [List.dropWhile_cons, if_pos h]
      exact ih
    · rw [List.dropWhile_cons, if_neg h, List.dropWhile_cons, if_neg h]

lemma dropWhile_eq_self_of_leading {p : Char → Bool} {r m : List Char}
    (hm : m.dropWhile p = m) (hp : r <+: m) : r.dropWhile p = r := by
  cases r with
  | nil => rfl
  | cons a t =>
    obtain ⟨s, hs⟩ := hp
    have hcons : m = a :: (t ++ s) := by rw [← hs]; simp
    have hpa : p a = false := by
      by_contra hb
      have hb' : p a = true := by
        cases hpab : p a
        · exact absurd hpab hb
        · rfl
      rw [hcons, List.dropWhile_cons, if_pos hb'] at hm
      have hlen := congrArg List.length hm
      have hle := (List.dropWhile_suffix p (l := t ++ s)).length_le
      simp at hlen hle
      omega
    rw [List.dropWhile_cons, if_neg (by simp [hpa])]

lemma isTrimmed_trimL (l : List Char) : IsTrimmed (trimL l) := by
  constructor
  · have h1 : (l.dropWhile isWs).dropWhile isWs = l.dropWhile isWs :=
      dropWhile_idem _ _
    have hsuf : ((l.dropWhile isWs).reverse.dropWhile isWs) <:+
        (l.dropWhile isWs).reverse := List.dropWhile_suffix _
    have hpre : ((l.dropWhile isWs).reverse.dropWhile isWs).reverse <+:
        l.dropWhile isWs := by
      have := List.IsSuffix.reverse hsuf
      rwa [List.reverse_reverse] at this
    exact dropWhile_eq_self_of_leading h1 hpre
  · show (trimL l).reverse.dropWhile isWs = (trimL l).reverse
    unfold trimL
    rw [List.reverse_reverse]
    exact dropWhile_idem _ _

lemma trimL_of_isTrimmed {m : List Char} (h : IsTrimmed m) : trimL m = m := by
  unfold trimL
  rw [h.1, h.2, List.reverse_reverse]

lemma trimL_idem (l : List Char) : trimL (trimL l) = trimL l :=
  trimL_of_isTrimmed (isTrimmed_trimL l)

lemma dropWhile_toLowerL_of_self {m : List Char} (h : m.dropWhile isWs = m) :
    (toLowerL m).dropWhile isWs = toLowerL m := by
  cases m with
  | nil => rfl
  | cons a t =>
    have hpa : isWs a = false := by
      by_contra hb
      have hb' : isWs a = true := by
        cases hpab : isWs a
        · exact absurd hpab hb
        · rfl
      rw [List.dropWhile_cons, if_pos hb'] at h
      have hlen := congrArg List.length h
      have hle := (List.dropWhile_suffix isWs (l := t)).length_le
      simp at hlen hle
      omega
    show ((a :: t).map lowerChar).dropWhile isWs = (a :: t).map lowerChar
    rw [List.map_cons, List.dropWhile_cons,
      if_neg (by simp [isWs_lowerChar hpa])]

lemma isTrimmed_toLowerL {m : List Char} (h : IsTrimmed m) :
    IsTrimmed (toLowerL m) := by
  constructor
  · exact dropWhile_toLowerL_of_self h.1
  · show (toLowerL m).reverse.dropWhile isWs = (toLowerL m).reverse
    have hrev : (toLowerL m).reverse = toLowerL m.reverse := by
      unfold toLowerL
      rw [List.map_reverse]
    rw [hrev]
    exact dropWhile_toLowerL_of_self h.2

/-- Normalisation is idempotent: trimming and lowercasing an
already-normalised line changes nothing. -/
lemma normalizeL_idem (l : List Char) :
    normalizeL (normalizeL l) = normalizeL l := by
  unfold normalizeL
  rw [trimL_of_isTrimmed (isTrimmed_toLowerL (isTrimmed_trimL l))]
  exact toLowerL_idem _

lemma normalizeL_eq_nil_of_ws {l : List Char} (h : ∀ c ∈ l, isWs c = true) :
    normalizeL l = [] := by
  have h1 : l.dropWhile isWs = [] := List.dropWhile_eq_nil_iff.mpr h
  unfold normalizeL trimL
  rw [h1]
  rfl

/-! ### Structure of `process_command` -/

lemma process_command_of_nil {env : Env} {cmd0 input : List Char}
    (h : normalizeL input = []) :
    process_command env cmd0 input = (cmd0, []) := by
  unfold process_command
  rw [h]
  rfl

lemma process_command_of_ne {env : Env} {cmd0 input : List Char}
    (h : normalizeL input ≠ []) :
    process_command env cmd0 input =
      (firstTok input,
        dispatch env (firstTok input) (splitOnSpace (normalizeL input))) := by
  unfold process_command firstTok
  rw [if_neg (fun hh => h (List.length_eq_zero.mp hh))]

lemma process_command_snd_of_ne {env : Env} {cmd0 input : List Char}
    (h : normalizeL input ≠ []) :
    (process_command env cmd0 input).2 =
      dispatch env (firstTok input) (splitOnSpace (normalizeL input)) := by
  rw [process_command_of_ne h]

lemma process_command_py_of_nil {env : Env} {cmd0 input : List Char}
    (h : normalizeL input = []) :
    process_command_py env cmd0 input = (cmd0, []) := by
  unfold process_command_py
  rw [h]
  rfl

lemma process_command_py_of_ne {env : Env} {cmd0 input : List Char}
    (h : normalizeL input ≠ []) :
    process_command_py env cmd0 input =
      (firstTok input,
        dispatch_py env (firstTok input) (splitOnSpace (normalizeL input))) := by
  unfold process_command_py firstTok
  rw [if_neg (fun hh => h (List.length_eq_zero.mp hh))]

lemma normalizeL_ne_nil_of_firstTok {input w : List Char}
    (h : firstTok input = w) (hw : w ≠ []) : normalizeL input ≠ [] := by
  intro hn
  apply hw
  rw [← h]
  unfold firstTok
  rw [hn]
  rfl

/-! ### Per-branch facts about the dispatch chain -/

lemma dispatch_ping (env : Env) (parts : List (List Char)) :
    dispatch env "ping".data parts = reply "pong".data := rfl

lemma dispatch_version (env : Env) (parts : List (List Char)) :
    dispatch env "version".data parts = reply "microbit_V2026.01.1".data := rfl

lemma dispatch_reset (env : Env) (parts : List (List Char)) :
    dispatch env "reset".data parts =
      Action.clearScreen ::
        Action.analogWritePin Pin.P0 (some 0) ::
        Action.analogWritePin Pin.P1 (some 0) ::
        Action.analogWritePin Pin.P2 (some 0) ::
        Action.stopAllSounds :: reply "RESET_OK".data := rfl

lemma dispatch_print (env : Env) (parts : List (List Char)) :
    dispatch env "print".data parts =
      [Action.showString
        (trimL ((parts.drop 1).foldl (fun a t => a ++ t ++ [' ']) []))] := rfl

lemma dispatch_get_sensor_short (env : Env) (parts : List (List Char))
    (h : parts.length < 2) : dispatch env "get_sensor".data parts = [] := by
  unfold dispatch
  rw [if_pos rfl, if_pos h]

lemma dispatch_get_pin_short (env : Env) (parts : List (List Char))
    (h : parts.length < 2) : dispatch env "get_pin".data parts = [] := by
  unfold dispatch
  rw [if_neg (by decide), if_pos rfl, if_pos h]

lemma dispatch_pin_short (env : Env) (parts : List (List Char))
    (h : parts.length < 4) : dispatch env "pin".data parts = [] := by
  unfold dispatch
  rw [if_neg (by decide), if_neg (by decide), if_pos rfl, if_pos h]

lemma dispatch_tone_short (env : Env) (parts : List (List Char))
    (h : parts.length < 3) : dispatch env "tone".data parts = [] := by
  unfold dispatch
  rw [if_neg (by decide), if_neg (by decide), if_neg (by decide), if_pos rfl,
    if_pos h]

lemma dispatch_plot_short (env : Env) (parts : List (List Char))
    (h : parts.length < 3) : dispatch env "plot".data parts = [] := by
  unfold dispatch
  rw [if_neg (by decide), if_neg (by decide), if_neg (by decide),
    if_neg (by decide), if_neg (by decide), if_pos rfl, if_pos h]

lemma dispatch_unplot_short (env : Env) (parts : List (List Char))
    (h : parts.length < 3) : dispatch env "unplot".data parts = [] := by
  unfold dispatch
  rw [if_neg (by decide), if_neg (by decide), if_neg (by decide),
    if_neg (by decide), if_neg (by decide), if_neg (by decide), if_pos rfl,
    if_pos h]

lemma dispatch_toggle_short (env : Env) (parts : List (List Char))
    (h : parts.length < 3) : dispatch env "toggle".data parts = [] := by
  unfold dispatch
  rw [if_neg (by decide), if_neg (by decide), if_neg (by decide),
    if_neg (by decide), if_neg (by decide), if_neg (by decide),
    if_neg (by decide), if_pos rfl, if_pos h]

lemma dispatch_get_pin_ok (env : Env) (parts : List (List Char))
    (h : ¬ parts.length < 2) :
    dispatch env "get_pin".data parts =
      (pinRead env (parts.getI 1)).1 ++
        reply ("PIN ".data ++ parts.getI 1 ++ ": ".data ++
          (toString (pinRead env (parts.getI 1)).2).data) := by
  unfold dispatch
  rw [if_neg (by decide), if_pos rfl, if_neg h]

lemma pinRead_unknown (env : Env) {x : List Char}
    (h : ¬(x = "p0".data ∨ x = "p1".data ∨ x = "p2".data)) :
    pinRead env x = ([], 0) := by
  push_neg at h
  unfold pinRead
  rw [if_neg h.1, if_neg h.2.1, if_neg h.2.2]

lemma dispatch_unregistered (env : Env) {c : List Char}
    (parts : List (List Char)) (h : c ∉ registeredNames) :
    dispatch env c parts = [] := by
  simp only [registeredNames, List.mem_cons, List.not_mem_nil, or_false,
    not_or] at h
  obtain ⟨h1, h2, h3, h4, h5, h6, h7, h8, h9, h10, h11, h12⟩ := h
  unfold dispatch
  rw [if_neg h1, if_neg h2, if_neg h3, if_neg h4, if_neg h5, if_neg h6,
    if_neg h7, if_neg h8, if_neg h9, if_neg h10, if_neg h11, if_neg h12]

lemma dispatch_py_unregistered (env : Env) {c : List Char}
    (parts : List (List Char)) (h : c ∉ registeredNames) :
    dispatch_py env c parts = [] := by
  simp only [registeredNames, List.mem_cons, List.not_mem_nil, or_false,
    not_or] at h
  obtain ⟨h1, h2, h3, h4, h5, h6, h7, h8, h9, h10, h11, -⟩ := h
  unfold dispatch_py
  rw [if_neg h1, if_neg h2, if_neg h3, if_neg h4, if_neg h5, if_neg h6,
    if_neg h7, if_neg h8, if_neg h9, if_neg h10, if_neg h11]

lemma dispatch_py_eq_dispatch (env : Env) (c : List Char)
    (parts : List (List Char)) (h : c ≠ "version".data) :
    dispatch_py env c parts = dispatch env c parts := by
  by_cases h1 : c = "get_sensor".data
  · subst h1; rfl
  by_cases h2 : c = "get_pin".data
  · subst h2; rfl
  by_cases h3 : c = "pin".data
  · subst h3; rfl
  by_cases h4 : c = "tone".data
  · subst h4; rfl
  by_cases h5 : c = "print".data
  · subst h5; rfl
  by_cases h6 : c = "plot".data
  · subst h6; rfl
  by_cases h7 : c = "unplot".data
  · subst h7; rfl
  by_cases h8 : c = "toggle".data
  · subst h8; rfl
  by_cases h9 : c = "clear".data
  · subst h9; rfl
  by_cases h10 : c = "reset".data
  · subst h10; rfl
  by_cases h11 : c = "ping".data
  · subst h11; rfl
  have hmem : c ∉ registeredNames := by
    simp only [registeredNames, List.mem_cons, List.not_mem_nil, or_false,
      not_or]
    exact ⟨h1, h2, h3, h4, h5, h6, h7, h8, h9, h10, h11, h⟩
  rw [dispatch_py_unregistered env parts hmem,
    dispatch_unregistered env parts hmem]

/-! ### Claims -/

/-- C1: for every input line whose first token after trimming and
lower-casing is not one of the twelve registered command names,
`process_command` performs no hardware action and sends no reply on either
transport (the trace is empty). -/
theorem unknown_command_silent (env : Env) (cmd0 input : List Char)
    (h : firstTok input ∉ registeredNames) :
    (process_command env cmd0 input).2 = [] := by
  by_cases hn : normalizeL input = []
  · rw [process_command_of_nil hn]
  · rw [process_command_snd_of_ne hn]
    exact dispatch_unregistered env _ h

theorem unknown_command_silent_witness :
    (process_command envW [] "frobnicate 1 2".data).2 = [] :=
  unknown_command_silent envW [] "frobnicate 1 2".data (by decide)

/-- C2: for every recognized command and every token sequence whose length
is below that command's minimum token count (`get_sensor` and `get_pin`: 2;
`tone`, `plot`, `unplot`, `toggle`: 3; `pin`: 4), `process_command` returns
silently: no reply is sent and no hardware action occurs. -/
theorem under_arity_silent (env : Env) (cmd0 input : List Char) :
    (firstTok input ∈ ["get_sensor".data, "get_pin".data] →
      (splitOnSpace (normalizeL input)).length < 2 →
      (process_command env cmd0 input).2 = []) ∧
    (firstTok input ∈ ["tone".data, "plot".data, "unplot".data, "toggle".data] →
      (splitOnSpace (normalizeL input)).length < 3 →
      (process_command env cmd0 input).2 = []) ∧
    (firstTok input = "pin".data →
      (splitOnSpace (normalizeL input)).length < 4 →
      (process_command env cmd0 input).2 = []) := by
  refine ⟨?_, ?_, ?_⟩
  · intro hmem hlen
    simp only [List.mem_cons, List.not_mem_nil, or_false] at hmem
    rcases hmem with hc | hc
    all_goals
      rw [process_command_snd_of_ne
        (normalizeL_ne_nil_of_firstTok hc (by decide)), hc]
    · exact dispatch_get_sensor_short env _ hlen
    · exact dispatch_get_pin_short env _ hlen
  · intro hmem hlen
    simp only [List.mem_cons, List.not_mem_nil, or_false] at hmem
    rcases hmem with hc | hc | hc | hc
    all_goals
      rw [process_command_snd_of_ne
        (normalizeL_ne_nil_of_firstTok hc (by decide)), hc]
    · exact dispatch_tone_short env _ hlen
    · exact dispatch_plot_short env _ hlen
    · exact dispatch_unplot_short env _ hlen
    · exact dispatch_toggle_short env _ hlen
  · intro hc hlen
    rw [process_command_snd_of_ne
      (normalizeL_ne_nil_of_firstTok hc (by decide)), hc]
    exact dispatch_pin_short env _ hlen

theorem under_arity_silent_witness :
    (process_command envW [] "get_pin".data).2 = [] ∧
    (process_command envW [] "tone 440".data).2 = [] ∧
    (process_command envW [] "pin d p0".data).2 = [] :=
  ⟨(under_arity_silent envW [] "get_pin".data).1 (by decide) (by decide),
   (under_arity_silent envW [] "tone 440".data).2.1 (by decide) (by decide),
   (under_arity_silent envW [] "pin d p0".data).2.2 (by decide) (by decide)⟩

/-- C3: every input line whose first token is `ping` is answered with
exactly `pong`, and every input line whose first token is `version` with
exactly the fixed version string, regardless of trailing argument tokens;
each reply goes to both transports. -/
theorem ping_version_reply (env : Env) (cmd0 input : List Char) :
    (firstTok input = "ping".data →
      (process_command env cmd0 input).2 =
        [Action.uartWriteLine "pong".data,
         Action.serialWriteLine "pong".data]) ∧
    (firstTok input = "version".data →
      (process_command env cmd0 input).2 =
        [Action.uartWriteLine "microbit_V2026.01.1".data,
         Action.serialWriteLine "microbit_V2026.01.1".data]) := by
  constructor
  · intro hc
    rw [process_command_snd_of_ne
      (normalizeL_ne_nil_of_firstTok hc (by decide)), hc]
    exact dispatch_ping env _
  · intro hc
    rw [process_command_snd_of_ne
      (normalizeL_ne_nil_of_firstTok hc (by decide)), hc]
    exact dispatch_version env _

theorem ping_version_reply_witness :
    (process_command envW [] "  PING extra args  ".data).2 =
      [Action.uartWriteLine "pong".data,
       Action.serialWriteLine "pong".data] ∧
    (process_command envW [] "version 1 2 3".data).2 =
      [Action.uartWriteLine "microbit_V2026.01.1".data,
       Action.serialWriteLine "microbit_V2026.01.1".data] :=
  ⟨(ping_version_reply envW [] "  PING extra args  ".data).1 (by decide),
   (ping_version_reply envW [] "version 1 2 3".data).2 (by decide)⟩

/-- C4: on an input line `get_pin <x>`, when `<x>` is `p0`, `p1` or `p2`
the reply is `PIN <x>: <v>` with `<v>` the analog read of that pin (and
that read is the only hardware action); for any other `<x>` a reply is
still sent and reports 0, with no hardware action at all. -/
theorem get_pin_reply (env : Env) (cmd0 x input : List Char)
    (h : splitOnSpace (normalizeL input) = ["get_pin".data, x]) :
    ((x = "p0".data ∨ x = "p1".data ∨ x = "p2".data) →
      (process_command env cmd0 input).2 =
        Action.analogReadPin (pinOf x) ::
          reply ("PIN ".data ++ x ++ ": ".data ++
            (toString (env.analogRead (pinOf x))).data)) ∧
    (¬(x = "p0".data ∨ x = "p1".data ∨ x = "p2".data) →
      (process_command env cmd0 input).2 =
        reply ("PIN ".data ++ x ++ ": 0".data)) := by
  have hne : normalizeL input ≠ [] := by
    intro hnil
    rw [hnil] at h
    have := congrArg List.length h
    simp [splitOnSpace] at this
  have hft : firstTok input = "get_pin".data := by
    unfold firstTok
    rw [h]
    rfl
  have hbase : (process_command env cmd0 input).2 =
      (pinRead env x).1 ++
        reply ("PIN ".data ++ x ++ ": ".data ++
          (toString (pinRead env x).2).data) := by
    rw [process_command_snd_of_ne hne, hft, h]
    exact dispatch_get_pin_ok env _ (by simp)
  constructor
  · intro hx
    rw [hbase]
    rcases hx with hx | hx | hx <;> subst hx <;> rfl
  · intro hx
    rw [hbase, pinRead_unknown env hx]
    simp [reply, List.append_assoc]
    decide

theorem get_pin_reply_witness :
    (process_command envW [] "get_pin p1".data).2 =
      [Action.analogReadPin Pin.P1,
       Action.uartWriteLine "PIN p1: 513".data,
       Action.serialWriteLine "PIN p1: 513".data] ∧
    (process_command envW [] "get_pin p7".data).2 =
      [Action.uartWriteLine "PIN p7: 0".data,
       Action.serialWriteLine "PIN p7: 0".data] := by
  constructor
  · have h := (get_pin_reply envW [] "p1".data "get_pin p1".data
      (by decide)).1 (by decide)
    rw [h]
    decide
  · have h := (get_pin_reply envW [] "p7".data "get_pin p7".data
      (by decide)).2 (by decide)
    rw [h]
    decide

/-- C5: every input line whose first token is `reset` clears the display,
writes 0 to the analog outputs of P0, P1 and P2, stops all sounds, and only
then sends the reply, which is always exactly `RESET_OK` on both
transports. -/
theorem reset_actions_then_reply (env : Env) (cmd0 input : List Char)
    (h : firstTok input = "reset".data) :
    (process_command env cmd0 input).2 =
      [Action.clearScreen,
       Action.analogWritePin Pin.P0 (some 0),
       Action.analogWritePin Pin.P1 (some 0),
       Action.analogWritePin Pin.P2 (some 0),
       Action.stopAllSounds,
       Action.uartWriteLine "RESET_OK".data,
       Action.serialWriteLine "RESET_OK".data] := by
  rw [process_command_snd_of_ne (normalizeL_ne_nil_of_firstTok h (by decide)),
    h]
  exact dispatch_reset env _

theorem reset_actions_then_reply_witness :
    (process_command envW [] "  RESET now ".data).2 =
      [Action.clearScreen,
       Action.analogWritePin Pin.P0 (some 0),
       Action.analogWritePin Pin.P1 (some 0),
       Action.analogWritePin Pin.P2 (some 0),
       Action.stopAllSounds,
       Action.uartWriteLine "RESET_OK".data,
       Action.serialWriteLine "RESET_OK".data] :=
  reset_actions_then_reply envW [] "  RESET now ".data (by decide)

/-- C6: `process_command` treats every raw input line exactly like its
trimmed and lower-cased form, so dispatch is case-insensitive and ignores
surrounding whitespace; in particular `"  PING  "` dispatches identically
to `"ping"`. -/
theorem normalization_invariance :
    (∀ (env : Env) (cmd0 input : List Char),
      process_command env cmd0 input =
        process_command env cmd0 (normalizeL input)) ∧
    (∀ (env : Env) (cmd0 : List Char),
      process_command env cmd0 "  PING  ".data =
        process_command env cmd0 "ping".data) := by
  have key : ∀ (env : Env) (cmd0 input : List Char),
      process_command env cmd0 input =
        process_command env cmd0 (normalizeL input) := by
    intro env cmd0 input
    unfold process_command
    rw [normalizeL_idem]
  refine ⟨key, ?_⟩
  intro env cmd0
  rw [key env cmd0 ("  PING  ".data),
    show normalizeL "  PING  ".data = "ping".data from by decide]

/-- C7: an input line consisting only of whitespace (or empty) produces no
reply, no hardware action and no dispatch; even the `cmd` global keeps its
previous value. -/
theorem whitespace_only_no_effect (env : Env) (cmd0 input : List Char)
    (h : ∀ c ∈ input, isWs c = true) :
    process_command env cmd0 input = (cmd0, []) :=
  process_command_of_nil (normalizeL_eq_nil_of_ws h)

theorem whitespace_only_no_effect_witness :
    process_command envW "keep".data "  \t  ".data = ("keep".data, []) :=
  whitespace_only_no_effect envW "keep".data "  \t  ".data (by decide)

/-- C8: on an input line whose first token is `print` with argument tokens
`a1..an`, the displayed text is the concatenation of each argument token
followed by one space, with the result trimmed. -/
theorem print_joins_tokens (env : Env) (cmd0 input : List Char)
    (args : List (List Char))
    (h : splitOnSpace (normalizeL input) = "print".data :: args) :
    (process_command env cmd0 input).2 =
      [Action.showString
        (trimL (args.foldl (fun a t => a ++ t ++ [' ']) []))] := by
  have hne : normalizeL input ≠ [] := by
    intro hnil
    rw [hnil] at h
    have hh := List.head_eq_of_cons_eq h
    exact absurd hh (by decide)
  have hft : firstTok input = "print".data := by
    unfold firstTok
    rw [h]
    rfl
  rw [process_command_snd_of_ne hne, hft, h]
  rfl

theorem print_joins_tokens_witness :
    (process_command envW [] "print hello world".data).2 =
      [Action.showString "hello world".data] := by
  have h := print_joins_tokens envW [] "print hello world".data
    ["hello".data, "world".data] (by decide)
  rw [h]
  decide

/-- C9 (counterexample): the two encodings of the interpreter are not
equivalent — on the input line `version` the TypeScript encoding replies
with the version string while the Python-style encoding does nothing. -/
theorem encodings_differ_on_version :
    process_command_py envW [] "version".data ≠
      process_command envW [] "version".data := by decide

/-- C9 (amended): the two encodings produce the same new `cmd` value, the
same replies and the same hardware actions on every input line whose first
token is not `version`; they differ exactly on the `version` command, which
only the TypeScript encoding implements. -/
theorem encodings_agree_off_version (env : Env) (cmd0 input : List Char)
    (h : firstTok input ≠ "version".data) :
    process_command_py env cmd0 input = process_command env cmd0 input := by
  by_cases hn : normalizeL input = []
  · rw [process_command_py_of_nil hn, process_command_of_nil hn]
  · rw [process_command_py_of_ne hn, process_command_of_ne hn,
      dispatch_py_eq_dispatch env _ _ h]

theorem encodings_agree_off_version_witness :
    process_command_py envW [] "get_sensor temp".data =
      process_command envW [] "get_sensor temp".data :=
  encodings_agree_off_version envW [] "get_sensor temp".data (by decide)

/-- C10: `process_command` sets the global `cmd` to the first token of the
normalised line whenever that line is non-empty — also for unregistered
commands — and leaves it unchanged on an empty normalised line; `cmd` is
write-only: the produced trace never depends on its previous value. -/
theorem cmd_global_update (env : Env) (c0 c1 input : List Char) :
    (process_command env c0 input).1 =
      (if normalizeL input = [] then c0 else firstTok input) ∧
    (process_command env c0 input).2 = (process_command env c1 input).2 := by
  by_cases hn : normalizeL input = []
  · rw [process_command_of_nil hn, process_command_of_nil hn, if_pos hn]
    exact ⟨rfl, rfl⟩
  · rw [process_command_of_ne hn, @process_command_of_ne env c1 input hn,
      if_neg hn]
    exact ⟨rfl, rfl⟩

end Microbit
